import Mathlib

/-!
# Verification of the P2P indexing server core

Shallow embedding of `src/indexing_server/{file_index, registry_service,
search_service, replication_service}.py`.  Python dynamic values are
modelled by the `Json` type (JSON numbers restricted to integers, which is
all the code under study produces); Python dictionaries by insertion-ordered
association lists; a Python exception by an `Option` result (`none` = the
call raised).
-/

namespace P2PIndex

/-- JSON-like Python value.  Object keys are strings (JSON object keys
always are); numbers are modelled as integers. -/
inductive Json where
  | null : Json
  | bool : Bool → Json
  | num : Int → Json
  | str : String → Json
  | arr : List Json → Json
  | obj : List (String × Json) → Json
deriving Repr


/-- Python truthiness: `None`, `False`, `0`, `""`, `[]`, `{}` are falsy. -/
def Json.truthy : Json → Bool
  | .null => false
  | .bool b => b
  | .num n => n != 0
  | .str s => !s.isEmpty
  | .arr xs => !xs.isEmpty
  | .obj kvs => !kvs.isEmpty

/-- Python hashability: lists and dicts are unhashable (using one as a
dict key raises `TypeError`). -/
def Json.hashable : Json → Bool
  | .arr _ => false
  | .obj _ => false
  | _ => true

/-- Python `int(x)`: ints pass through, `True`/`False` give 1/0, numeric
strings are parsed (approximating CPython's string acceptance by
trim-then-parse); anything else raises (`none`). -/
def pyToInt : Json → Option Int
  | .num n => some n
  | .bool b => some (if b then 1 else 0)
  | .str s => s.trim.toInt?
  | _ => none

/-- First binding of string key `k` in an association list (Python
`dict` lookup for the string-keyed dicts of this code base). -/
def lookupKV (k : String) : List (String × Json) → Option Json
  | [] => none
  | (k', v) :: t => if k = k' then some v else lookupKV k t

theorem lookupKV_sizeOf {k : String} {l : List (String × Json)} {w : Json}
    (h : lookupKV k l = some w) : sizeOf w < sizeOf l := by
  induction l with
  | nil => simp [lookupKV] at h
  | cons p t ih =>
    obtain ⟨k', v⟩ := p
    by_cases hk : k = k'
    · simp [lookupKV, hk] at h
      subst h
      simp
      omega
    · simp [lookupKV, hk] at h
      have := ih h
      simp
      omega

/-- Python `==` on the modelled values: `True == 1`, `False == 0`;
lists compare pointwise; dicts compare by keys and values, ignoring
insertion order. -/
def pyEq : Json → Json → Bool
  | .null, .null => true
  | .bool a, .bool b => a == b
  | .bool a, .num b => (if a then (1 : Int) else 0) == b
  | .num a, .bool b => a == (if b then (1 : Int) else 0)
  | .num a, .num b => a == b
  | .str a, .str b => a == b
  | .arr [], .arr [] => true
  | .arr (x :: xs), .arr (y :: ys) => pyEq x y && pyEq (.arr xs) (.arr ys)
  | .obj a, .obj b =>
      a.length == b.length &&
      a.attach.all (fun kv =>
        match h : lookupKV kv.1.1 b with
        | some w => pyEq kv.1.2 w
        | none => false)
  | _, _ => false
termination_by a b => sizeOf a + sizeOf b
decreasing_by
  · simp only [Json.arr.sizeOf_spec, List.cons.sizeOf_spec]
    omega
  · simp only [Json.arr.sizeOf_spec, List.cons.sizeOf_spec]
    omega
  · have h1 : sizeOf kv.1 < sizeOf a := List.sizeOf_lt_of_mem kv.2
    have h2 : sizeOf w < sizeOf b := lookupKV_sizeOf h
    have h3 : sizeOf kv.1.2 < sizeOf kv.1 := by
      obtain ⟨⟨k, v⟩, hm⟩ := kv
      simp only [Prod.mk.sizeOf_spec]
      omega
    simp only [Json.obj.sizeOf_spec]
    omega

/-- Python `dict.get(k)` on a `Json`-keyed dict (stored keys compared to
the probe key with Python `==`; the caller checks hashability). -/
def dictGet (k : Json) : List (Json × α) → Option α
  | [] => none
  | (k', v) :: t => if pyEq k k' then some v else dictGet k t

/-- Python `d[k] = v`: replace the value of the matching key in place, or
append a new binding at the end (dicts preserve insertion order). -/
def dictSet (k : Json) (v : α) : List (Json × α) → List (Json × α)
  | [] => [(k, v)]
  | (k', v') :: t => if pyEq k k' then (k', v) :: t else (k', v') :: dictSet k v t

/-- Python `d.pop(k, None)`: drop the matching binding if present. -/
def dictPop (k : Json) : List (Json × α) → List (Json × α)
  | [] => []
  | (k', v') :: t => if pyEq k k' then t else (k', v') :: dictPop k t

/-- Python `d[k] = v` on a string-keyed dict literal being built up. -/
def objSet (k : String) (v : Json) : List (String × Json) → List (String × Json)
  | [] => [(k, v)]
  | (k', v') :: t => if k' = k then (k', v) :: t else (k', v') :: objSet k v t

/-- A serving entry `{"peer_id": ..., "meta": ...}` stored in `file_index`
(entries are only ever built by `add_file`, with exactly these two keys). -/
structure Serving where
  peer_id : Json
  meta : Json
deriving Repr

/-- State of `FileIndex` (`file_index.py`):
`file_index : {file_name: [serving]}` and
`peer_registry : {peer_id: record}`. -/
structure FileIndex where
  file_index : List (Json × List Serving)
  peer_registry : List (Json × Json)
deriving Repr

def FileIndex.empty : FileIndex := ⟨[], []⟩

/-- The dict literal `{"peer_id": peer_id, **peer_info}`: the `peer_id`
binding first, then `peer_info`'s bindings in order (a `peer_id` key in
`peer_info` overrides the initial binding). -/
def mkPeerRecord (pid : Json) (kvs : List (String × Json)) : List (String × Json) :=
  kvs.foldl (fun acc kv => objSet kv.1 kv.2 acc) [("peer_id", pid)]

/-- `FileIndex.add_peer`: `peer_registry[peer_id] = {"peer_id": peer_id,
**peer_info}`. Raises (`none`) when `peer_id` is unhashable or `peer_info`
is not a dict (the `**` splat needs a mapping). -/
def FileIndex.add_peer (s : FileIndex) (pid : Json) (peer_info : Json) : Option FileIndex :=
  if !pid.hashable then none
  else match peer_info with
    | .obj kvs =>
        some { s with peer_registry := dictSet pid (Json.obj (mkPeerRecord pid kvs)) s.peer_registry }
    | _ => none

/-- `FileIndex.remove_peer`: pop the registry entry, then drop the peer
from every serving list, deleting files whose list becomes empty. -/
def FileIndex.remove_peer (s : FileIndex) (pid : Json) : Option FileIndex :=
  if !pid.hashable then none
  else some
    { peer_registry := dictPop pid s.peer_registry,
      file_index := s.file_index.filterMap (fun fl =>
        let l' := fl.2.filter (fun p => !(pyEq p.peer_id pid))
        if l'.isEmpty then none else some (fl.1, l')) }

/-- `FileIndex.get_peer`: `peer_registry.get(peer_id)`.  Outer `none` =
raised (unhashable key); inner `Option` is the Python `None`-or-record. -/
def FileIndex.get_peer (s : FileIndex) (pid : Json) : Option (Option Json) :=
  if !pid.hashable then none else some (dictGet pid s.peer_registry)

/-- `FileIndex.add_file`: `setdefault(file_name, [])`, then append
`{"peer_id": peer_id, "meta": meta or {}}` unless the peer already serves
the file. -/
def FileIndex.add_file (s : FileIndex) (pid : Json) (file_name : Json) (meta : Json) :
    Option FileIndex :=
  if !file_name.hashable then none
  else
    let entry : Serving := ⟨pid, if meta.truthy then meta else Json.obj []⟩
    match dictGet file_name s.file_index with
    | some peers =>
        if peers.any (fun p => pyEq p.peer_id pid) then some s
        else some { s with file_index := dictSet file_name (peers ++ [entry]) s.file_index }
    | none =>
        some { s with file_index := s.file_index ++ [(file_name, [entry])] }

/-- `FileIndex.remove_file`: filter the peer out of the file's serving
list; delete the file when the list becomes empty; no-op when the file is
absent (or its list already empty). -/
def FileIndex.remove_file (s : FileIndex) (pid : Json) (file_name : Json) : Option FileIndex :=
  if !file_name.hashable then none
  else match dictGet file_name s.file_index with
    | none => some s
    | some peers =>
        if peers.isEmpty then some s
        else
          let l' := peers.filter (fun p => !(pyEq p.peer_id pid))
          if l'.isEmpty then some { s with file_index := dictPop file_name s.file_index }
          else some { s with file_index := dictSet file_name l' s.file_index }

/-- An enriched result entry `{"peer_id": ..., "peer": ..., "meta": ...}`
of `get_peers_for_file`. -/
structure Enriched where
  peer_id : Json
  peer : Json
  meta : Json
deriving Repr

/-- Enrichment of one serving: `{"peer_id": pid, "peer":
peer_registry.get(pid, {}), "meta": p.get("meta", {})}`.  Raises when the
serving's `peer_id` is unhashable. -/
def enrichServing (registry : List (Json × Json)) (p : Serving) : Option Enriched :=
  if !p.peer_id.hashable then none
  else some ⟨p.peer_id, (dictGet p.peer_id registry).getD (Json.obj []), p.meta⟩

/-- The `for p in peers` enrichment loop of `get_peers_for_file`. -/
def enrichAll (registry : List (Json × Json)) : List Serving → Option (List Enriched)
  | [] => some []
  | p :: t => do
      let e ← enrichServing registry p
      let rest ← enrichAll registry t
      some (e :: rest)

/-- `FileIndex.get_peers_for_file`: look up the serving list (default
`[]`) and enrich each entry with the current registry record. -/
def FileIndex.get_peers_for_file (s : FileIndex) (file_name : Json) : Option (List Enriched) :=
  if !file_name.hashable then none
  else enrichAll s.peer_registry ((dictGet file_name s.file_index).getD [])

/-- `FileIndex.list_files`: `list(file_index.keys())`. -/
def FileIndex.list_files (s : FileIndex) : List Json := s.file_index.map (·.1)

/-- Python `x.get(k)` on a value that the code assumes is a dict: raises
(`none`) for non-dicts, and gives `None` for a missing key. -/
def pyGet (j : Json) (k : String) : Option Json :=
  match j with
  | .obj kvs => some ((lookupKV k kvs).getD .null)
  | _ => none

/-- A replication task `{"file_name": ..., "source": {"peer_id": ...,
"host": ..., "port": int(...)}}`. -/
structure Task where
  file_name : Json
  source_peer_id : Json
  source_host : Json
  source_port : Int
deriving Repr

/-- The `for fname in list_files()` loop body of
`build_replication_tasks_for_peer`, with the accumulated `tasks` list. -/
def buildTasksGo (s : FileIndex) (R : Int) (target : Json) (maxTasks : Int) :
    List Json → List Task → Option (List Task)
  | [], acc => some acc
  | fname :: rest, acc => do
      let peers1 ← s.get_peers_for_file fname
      if (peers1.length : Int) ≥ R then buildTasksGo s R target maxTasks rest acc
      else do
        let peers2 ← s.get_peers_for_file fname
        if peers2.any (fun p => pyEq p.peer_id target) then
          buildTasksGo s R target maxTasks rest acc
        else do
          let sources ← s.get_peers_for_file fname
          match sources with
          | [] => buildTasksGo s R target maxTasks rest acc
          | source :: _ => do
              let h1 ← pyGet source.peer "host"
              let h2 ← pyGet source.peer "ip"
              let host := if h1.truthy then h1 else h2
              let portJ ← pyGet source.peer "port"
              if !host.truthy || !portJ.truthy then
                buildTasksGo s R target maxTasks rest acc
              else do
                let port ← pyToInt portJ
                let acc' := acc ++ [⟨fname, source.peer_id, host, port⟩]
                if (acc'.length : Int) ≥ maxTasks then some acc'
                else buildTasksGo s R target maxTasks rest acc'

/-- `ReplicationService.build_replication_tasks_for_peer`, as a function
of the index state and the service's `replication_factor`. -/
def build_replication_tasks_for_peer (s : FileIndex) (replication_factor : Int)
    (target_peer_id : Json) (max_tasks : Int) : Option (List Task) :=
  buildTasksGo s replication_factor target_peer_id max_tasks s.list_files []

/-- A request envelope as the handlers read it: the `peer_id` field
(`null` when absent, as `message.get` gives) and the `payload` object. -/
structure Message where
  peer_id : Json
  payload : List (String × Json)
deriving Repr

/-- A response envelope; `ProtocolHandler.create_message` wraps the
payload with the message type and the echoed `peer_id` (the wall-clock
`timestamp` and the constant `version`/`request_id` fields are not
modelled). -/
structure Envelope (α : Type) where
  type : String
  peer_id : Json
  payload : α
deriving Repr

def createMessage (t : String) (p : α) (pid : Json) : Envelope α := ⟨t, pid, p⟩

def SEARCH_RESPONSE : String := "SEARCH_RESPONSE"

def REGISTRY_RESPONSE : String := "REGISTRY_RESPONSE"

/-- The `resp` dict built by `SearchService.search`: fields are `Option`
to model key absence. -/
structure SearchResp where
  status : String
  error : Option String
  file_name : Option Json
  results : List Enriched
deriving Repr

/-- `SearchService.search`: a string query is the file name, a dict query
holds it under `"file_name"`; any other query type raises
(`query.get` on a non-dict). -/
def SearchService.search (s : FileIndex) (msg : Message) : Option (Envelope SearchResp) := do
  let query := (lookupKV "query" msg.payload).getD (Json.obj [])
  let file_name ←
    match query with
    | .str _ => some query
    | .obj kvs => some ((lookupKV "file_name" kvs).getD .null)
    | _ => none
  let resp ←
    if !file_name.truthy then
      some (⟨"error", some "missing file_name", none, []⟩ : SearchResp)
    else do
      let peers ← s.get_peers_for_file file_name
      some (⟨"ok", none, some file_name, peers⟩ : SearchResp)
  some (createMessage SEARCH_RESPONSE resp msg.peer_id)

/-- The `resp_payload` dict built by `RegistryService.register_peer`:
fields are `Option` to model key absence. -/
structure RegistryResp where
  status : String
  error : Option String
  registered_files : Option Int
  replication_required : Option Bool
  replication_tasks : Option (List Task)
deriving Repr

/-- The `isinstance(files, dict)` registration loop: add every entry and
count it (duplicates included). -/
def registerFilesDict (pid : Json) : List (String × Json) → FileIndex → Int →
    Option (FileIndex × Int)
  | [], s, n => some (s, n)
  | (fname, meta) :: rest, s, n => do
      let s' ← s.add_file pid (.str fname) (match meta with | .obj _ => meta | _ => .obj [])
      registerFilesDict pid rest s' (n + 1)

/-- The `isinstance(files, list)` registration loop: non-dict items and
items without a truthy `name`/`file_name` are skipped and not counted. -/
def registerFilesList (pid : Json) : List Json → FileIndex → Int → Option (FileIndex × Int)
  | [], s, n => some (s, n)
  | item :: rest, s, n =>
      match item with
      | .obj kvs =>
          let g1 := (lookupKV "name" kvs).getD .null
          let g2 := (lookupKV "file_name" kvs).getD .null
          let fname := if g1.truthy then g1 else g2
          let meta := Json.obj (kvs.filter (fun kv => kv.1 != "name" && kv.1 != "file_name"))
          if fname.truthy then do
            let s' ← s.add_file pid fname meta
            registerFilesList pid rest s' (n + 1)
          else registerFilesList pid rest s n
      | _ => registerFilesList pid rest s n

/-- `RegistryService.register_peer` (with
`self.replication.build_replication_tasks_for_peer(peer_id, max_tasks=5)`
inlined): reject a falsy `peer_id`; record the peer with the declared or
socket endpoint; register the files; attach up to 5 replication tasks. -/
def RegistryService.register_peer (s : FileIndex) (msg : Message)
    (client_host : String) (client_port : Int) (replication_factor : Int) :
    Option (FileIndex × Envelope RegistryResp) :=
  let pid := msg.peer_id
  let files := (lookupKV "files" msg.payload).getD (Json.obj [])
  let peer_info := (lookupKV "peer" msg.payload).getD (Json.obj [])
  if !pid.truthy then
    some (s, createMessage REGISTRY_RESPONSE
      (⟨"error", some "missing peer_id", none, none, none⟩ : RegistryResp) pid)
  else
    match peer_info with
    | .obj pkvs => do
        let intended_host := (lookupKV "host" pkvs).getD .null
        let intended_port := (lookupKV "port" pkvs).getD .null
        let final_port : Int :=
          match intended_port with
          | .null => client_port
          | p => (pyToInt p).getD client_port
        let final_host := if intended_host.truthy then intended_host else Json.str client_host
        let s1 ← s.add_peer pid
          (Json.obj (objSet "port" (Json.num final_port) (objSet "host" final_host pkvs)))
        let (s2, registered) ←
          match files with
          | .obj fkvs => registerFilesDict pid fkvs s1 0
          | .arr items => registerFilesList pid items s1 0
          | _ => some (s1, 0)
        let tasks ← build_replication_tasks_for_peer s2 replication_factor pid 5
        let resp : RegistryResp :=
          if tasks.isEmpty then ⟨"ok", none, some registered, some false, none⟩
          else ⟨"ok", none, some registered, some true, some tasks⟩
        some (s2, createMessage REGISTRY_RESPONSE resp pid)
    | _ => none

/-- What `build_replication_tasks_for_peer` guarantees for each emitted
task: the file's serving list is non-empty and strictly under the
replication factor, the target serves none of it, and the task's source is
the first serving peer, which has a truthy host (or ip) and port. -/
def TaskOk (s : FileIndex) (R : Int) (target : Json) (t : Task) : Prop :=
  ∃ hd tl, s.get_peers_for_file t.file_name = some (hd :: tl) ∧
    (((hd :: tl).length : Int) < R) ∧
    (∀ e ∈ hd :: tl, pyEq e.peer_id target = false) ∧
    t.source_peer_id = hd.peer_id ∧
    ∃ h1 h2 portJ,
      pyGet hd.peer "host" = some h1 ∧ pyGet hd.peer "ip" = some h2 ∧
      pyGet hd.peer "port" = some portJ ∧
      t.source_host = (if h1.truthy then h1 else h2) ∧
      t.source_host.truthy = true ∧ portJ.truthy = true ∧
      pyToInt portJ = some t.source_port

theorem buildTasksGo_length {s : FileIndex} {R : Int} {target : Json} {maxTasks : Int} :
    ∀ {files : List Json} {acc res : List Task},
      ((acc.length : Int) < maxTasks) →
      buildTasksGo s R target maxTasks files acc = some res →
      (res.length : Int) ≤ maxTasks := by
  intro files
  induction files with
  | nil =>
    intro acc res hlt h
    simp only [buildTasksGo, Option.some_inj] at h
    subst h
    omega
  | cons fname rest ih =>
    intro acc res hlt h
    rw [buildTasksGo] at h
    rcases hx : s.get_peers_for_file fname with _ | peers
    · rw [hx] at h
      simp at h
    · rw [hx] at h
      simp only [Option.bind_eq_bind, Option.some_bind] at h
      split at h
      · exact ih hlt h
      · split at h
        · exact ih hlt h
        · rcases peers with _ | ⟨source, ptl⟩
          · exact ih hlt h
          · dsimp only at h
            rcases hh1 : pyGet source.peer "host" with _ | h1 <;> rw [hh1] at h
            · simp at h
            · rw [Option.some_bind] at h
              rcases hh2 : pyGet source.peer "ip" with _ | h2 <;> rw [hh2] at h
              · simp at h
              · rw [Option.some_bind] at h
                rcases hhp : pyGet source.peer "port" with _ | portJ <;> rw [hhp] at h
                · simp at h
                · rw [Option.some_bind] at h
                  set host := if h1.truthy = true then h1 else h2 with hhost
                  by_cases husable : (!host.truthy || !portJ.truthy) = true
                  · rw [if_pos husable] at h
                    exact ih hlt h
                  · rw [if_neg husable] at h
                    rcases hhi : pyToInt portJ with _ | port <;> rw [hhi] at h
                    · simp at h
                    · rw [Option.some_bind] at h
                      by_cases hfull : ((acc ++ [(⟨fname, source.peer_id, host, port⟩ : Task)]).length : Int) ≥ maxTasks
                      · rw [if_pos hfull] at h
                        rw [Option.some_inj] at h
                        subst h
                        simp only [List.length_append, List.length_cons, List.length_nil]
                        push_cast
                        omega
                      · rw [if_neg hfull] at h
                        refine ih ?_ h
                        simp only [List.length_append, List.length_cons, List.length_nil] at hfull ⊢
                        push_cast at hfull ⊢
                        omega

theorem buildTasksGo_tasks {s : FileIndex} {R : Int} {target : Json} {maxTasks : Int} :
    ∀ {files : List Json} {acc res : List Task},
      (∀ t ∈ acc, TaskOk s R target t) →
      buildTasksGo s R target maxTasks files acc = some res →
      ∀ t ∈ res, TaskOk s R target t := by
  intro files
  induction files with
  | nil =>
    intro acc res hacc h
    simp only [buildTasksGo, Option.some_inj] at h
    subst h
    exact hacc
  | cons fname rest ih =>
    intro acc res hacc h
    rw [buildTasksGo] at h
    rcases hx : s.get_peers_for_file fname with _ | peers
    · rw [hx] at h
      simp at h
    · rw [hx] at h
      simp only [Option.bind_eq_bind, Option.some_bind] at h
      split at h
      · exact ih hacc h
      · rename_i hR
        split at h
        · exact ih hacc h
        · rename_i hany
          rcases peers with _ | ⟨source, ptl⟩
          · exact ih hacc h
          · dsimp only at h
            rcases hh1 : pyGet source.peer "host" with _ | h1 <;> rw [hh1] at h
            · simp at h
            · rw [Option.some_bind] at h
              rcases hh2 : pyGet source.peer "ip" with _ | h2 <;> rw [hh2] at h
              · simp at h
              · rw [Option.some_bind] at h
                rcases hhp : pyGet source.peer "port" with _ | portJ <;> rw [hhp] at h
                · simp at h
                · rw [Option.some_bind] at h
                  set host := if h1.truthy = true then h1 else h2 with hhost
                  by_cases husable : (!host.truthy || !portJ.truthy) = true
                  · rw [if_pos husable] at h
                    exact ih hacc h
                  · rw [if_neg husable] at h
                    rcases hhi : pyToInt portJ with _ | port <;> rw [hhi] at h
                    · simp at h
                    · rw [Option.some_bind] at h
                      have hhostt : host.truthy = true := by
                        revert husable
                        cases host.truthy <;> cases portJ.truthy <;> simp
                      have hportt : portJ.truthy = true := by
                        revert husable
                        cases host.truthy <;> cases portJ.truthy <;> simp
                      have hok : TaskOk s R target ⟨fname, source.peer_id, host, port⟩ := by
                        refine ⟨source, ptl, hx, by omega, ?_, rfl, h1, h2, portJ,
                          hh1, hh2, hhp, hhost, hhostt, hportt, hhi⟩
                        intro e he
                        have hanyf : ((source :: ptl).any fun p => pyEq p.peer_id target) = false := by
                          revert hany
                          cases ((source :: ptl).any fun p => pyEq p.peer_id target) <;> simp
                        have := List.any_eq_false.mp hanyf e he
                        revert this
                        cases pyEq e.peer_id target <;> simp
                      have hacc' : ∀ t ∈ acc ++ [(⟨fname, source.peer_id, host, port⟩ : Task)],
                          TaskOk s R target t := by
                        intro t ht
                        rcases List.mem_append.mp ht with ht' | ht'
                        · exact hacc t ht'
                        · simp at ht'
                          rw [ht']
                          exact hok
                      by_cases hfull : ((acc ++ [(⟨fname, source.peer_id, host, port⟩ : Task)]).length : Int) ≥ maxTasks
                      · rw [if_pos hfull] at h
                        rw [Option.some_inj] at h
                        subst h
                        exact hacc'
                      · rw [if_neg hfull] at h
                        exact ih hacc' h

/-- C3 (amended): when `1 ≤ max_tasks` and the call returns, the task
list has length at most `max_tasks` and every task names an
under-replicated file not served by the target, sourced from the first
serving peer, whose host and port are usable.  (For `max_tasks ≤ 0` the
length bound fails — see the counterexample — because the loop tests the
bound only after appending.) -/
theorem c3_build_tasks (s : FileIndex) (R : Int) (target : Json) (max_tasks : Int)
    (tasks : List Task) (hmax : 1 ≤ max_tasks)
    (h : build_replication_tasks_for_peer s R target max_tasks = some tasks) :
    (tasks.length : Int) ≤ max_tasks ∧ ∀ t ∈ tasks, TaskOk s R target t := by
  rw [build_replication_tasks_for_peer] at h
  exact ⟨buildTasksGo_length (by simpa using hmax) h,
    buildTasksGo_tasks (by simp) h⟩

/-- An index with one under-replicated file and a usable source peer. -/
def c3State : FileIndex :=
  ⟨[(.str "f", [⟨.str "p1", .obj []⟩])],
   [(.str "p1", .obj [("peer_id", .str "p1"), ("host", .str "h"), ("port", .num 7100)])]⟩

/-- C3 counterexample: with `max_tasks = 0` the call still returns one
task (the bound `len(tasks) >= max_tasks` is only checked after a task
has been appended), so the returned length exceeds `max_tasks`. -/
theorem c3_counterexample :
    build_replication_tasks_for_peer c3State 2 (.str "t") 0 =
      some [⟨.str "f", .str "p1", .str "h", 7100⟩] ∧
    ¬ ((([(⟨.str "f", .str "p1", .str "h", 7100⟩ : Task)] : List Task).length : Int) ≤ 0) := by
  constructor
  · simp [build_replication_tasks_for_peer, buildTasksGo, c3State,
      FileIndex.list_files, FileIndex.get_peers_for_file, Json.hashable, dictGet,
      pyEq, enrichAll, enrichServing, pyGet, lookupKV, Json.truthy, pyToInt]
    rfl
  · simp

/-- Witness for `c3_build_tasks` at `c3State` with `max_tasks = 5`. -/
theorem c3_build_tasks_witness :
    ((([(⟨.str "f", .str "p1", .str "h", 7100⟩ : Task)] : List Task).length : Int) ≤ 5) :=
  (c3_build_tasks c3State 2 (.str "t") 5 [⟨.str "f", .str "p1", .str "h", 7100⟩]
    (by norm_num)
    (by
      simp [build_replication_tasks_for_peer, buildTasksGo, c3State,
        FileIndex.list_files, FileIndex.get_peers_for_file, Json.hashable, dictGet,
        pyEq, enrichAll, enrichServing, pyGet, lookupKV, Json.truthy, pyToInt]
      rfl)).1

/-- Index states reachable from the empty index by successful
`FileIndex` operations, in any order and with any arguments. -/
inductive Reachable : FileIndex → Prop where
  | init : Reachable FileIndex.empty
  | add_peer {s s' : FileIndex} {pid info : Json} :
      Reachable s → s.add_peer pid info = some s' → Reachable s'
  | remove_peer {s s' : FileIndex} {pid : Json} :
      Reachable s → s.remove_peer pid = some s' → Reachable s'
  | add_file {s s' : FileIndex} {pid f m : Json} :
      Reachable s → s.add_file pid f m = some s' → Reachable s'
  | remove_file {s s' : FileIndex} {pid f : Json} :
      Reachable s → s.remove_file pid f = some s' → Reachable s'

section Helpers

variable {α : Type}

theorem dictGet_mem {k : Json} {d : List (Json × α)} {v : α}
    (h : dictGet k d = some v) : ∃ k', (k', v) ∈ d ∧ pyEq k k' = true := by
  induction d with
  | nil => simp [dictGet] at h
  | cons kv t ih =>
    obtain ⟨k', v'⟩ := kv
    by_cases hk : pyEq k k' = true
    · simp [dictGet, hk] at h
      exact ⟨k', by simp [h], hk⟩
    · simp [dictGet, hk] at h
      obtain ⟨k'', hm, hk''⟩ := ih h
      exact ⟨k'', by simp [hm], hk''⟩

theorem mem_dictSet {k : Json} {d : List (Json × α)} {v : α} {kv : Json × α}
    (h : kv ∈ dictSet k v d) : kv ∈ d ∨ kv.2 = v := by
  induction d with
  | nil => simp [dictSet] at h; simp [h]
  | cons kv' t ih =>
    obtain ⟨k', v'⟩ := kv'
    by_cases hk : pyEq k k' = true
    · simp [dictSet, hk] at h
      rcases h with h | h
      · simp [h]
      · exact Or.inl (List.mem_cons_of_mem _ h)
    · simp [dictSet, hk] at h
      rcases h with h | h
      · exact Or.inl (by simp [h])
      · rcases ih h with h' | h'
        · exact Or.inl (List.mem_cons_of_mem _ h')
        · exact Or.inr h'

theorem mem_dictPop {k : Json} {d : List (Json × α)} {kv : Json × α}
    (h : kv ∈ dictPop k d) : kv ∈ d := by
  induction d with
  | nil => simp [dictPop] at h
  | cons kv' t ih =>
    obtain ⟨k', v'⟩ := kv'
    by_cases hk : pyEq k k' = true
    · simp [dictPop, hk] at h
      exact List.mem_cons_of_mem _ h
    · simp [dictPop, hk] at h
      rcases h with h | h
      · simp [h]
      · exact List.mem_cons_of_mem _ (ih h)

theorem dictGet_of_no_match {k : Json} {d : List (Json × α)}
    (h : ∀ kv ∈ d, pyEq k kv.1 = false) : dictGet k d = none := by
  induction d with
  | nil => rfl
  | cons kv t ih =>
    have hk := h kv (by simp)
    simp [dictGet, hk]
    exact ih (fun kv' hm => h kv' (List.mem_cons_of_mem _ hm))

theorem dictGet_dictPop_of_unique {k : Json} {d : List (Json × α)}
    (h : (d.filter (fun kv => pyEq k kv.1)).length ≤ 1) :
    dictGet k (dictPop k d) = none := by
  induction d with
  | nil => rfl
  | cons kv t ih =>
    obtain ⟨k', v'⟩ := kv
    by_cases hk : pyEq k k' = true
    · simp [dictPop, hk]
      have hfil : ((k', v') :: t).filter (fun kv => pyEq k kv.1) =
          (k', v') :: t.filter (fun kv => pyEq k kv.1) := by
        simp [List.filter_cons, hk]
      rw [hfil] at h
      simp only [List.length_cons] at h
      have hnil : t.filter (fun kv => pyEq k kv.1) = [] :=
        List.length_eq_zero.mp (by omega)
      cases hget : dictGet k t with
      | none => rfl
      | some v =>
        exfalso
        obtain ⟨k'', hm, hk''⟩ := dictGet_mem hget
        have : (k'', v) ∈ t.filter (fun kv => pyEq k kv.1) := by
          simp [List.mem_filter, hm, hk'']
        simp [hnil] at this
    · have hfil : ((k', v') :: t).filter (fun kv => pyEq k kv.1) =
          t.filter (fun kv => pyEq k kv.1) := by
        simp [List.filter_cons, hk]
      rw [hfil] at h
      simp [dictPop, dictGet, hk]
      exact ih h

theorem dictGet_dictSet_of_found {k : Json} {d : List (Json × α)} {r v : α}
    (h : dictGet k d = some r) : dictGet k (dictSet k v d) = some v := by
  induction d with
  | nil => simp [dictGet] at h
  | cons kv t ih =>
    obtain ⟨k', v'⟩ := kv
    by_cases hk : pyEq k k' = true
    · simp [dictSet, dictGet, hk]
    · simp [dictGet, hk] at h
      simp [dictSet, dictGet, hk]
      exact ih h

theorem enrichAll_spec {registry : List (Json × Json)} :
    ∀ {ps : List Serving} {l : List Enriched}, enrichAll registry ps = some l →
      l.length = ps.length ∧
      ∀ pr ∈ l.zip ps,
        pr.1.peer_id = pr.2.peer_id ∧ pr.1.meta = pr.2.meta ∧
        pr.1.peer = (dictGet pr.2.peer_id registry).getD (Json.obj []) := by
  intro ps
  induction ps with
  | nil => intro l h; simp [enrichAll] at h; simp [h]
  | cons p t ih =>
    intro l h
    simp only [enrichAll, Option.bind_eq_bind, Option.bind_eq_some] at h
    obtain ⟨e, he, rest, hrest, hl⟩ := h
    simp only [enrichServing] at he
    rw [Option.some_inj] at hl
    rcases hhash : (!p.peer_id.hashable) with _ | _
    · rw [hhash] at he
      simp at he
      obtain ⟨hlen, hzip⟩ := ih hrest
      subst hl
      constructor
      · simp [hlen]
      · intro pr hpr
        simp only [List.zip_cons_cons, List.mem_cons] at hpr
        rcases hpr with hpr | hpr
        · subst hpr
          simp [← he]
        · exact hzip pr hpr
    · rw [hhash] at he
      simp at he

theorem enrichAll_peer_ids {registry : List (Json × Json)}
    {ps : List Serving} {l : List Enriched} (h : enrichAll registry ps = some l) :
    ∀ e ∈ l, ∃ p ∈ ps, e.peer_id = p.peer_id := by
  induction ps generalizing l with
  | nil => simp [enrichAll] at h; simp [h]
  | cons p t ih =>
    simp only [enrichAll, Option.bind_eq_bind, Option.bind_eq_some] at h
    obtain ⟨e, he, rest, hrest, hl⟩ := h
    simp only [enrichServing] at he
    rw [Option.some_inj] at hl
    rcases hhash : (!p.peer_id.hashable) with _ | _
    · rw [hhash] at he
      simp at he
      subst hl
      intro e' he'
      rcases List.mem_cons.mp he' with h' | h'
      · exact ⟨p, by simp, by simp [h', ← he]⟩
      · obtain ⟨p', hp', hid⟩ := ih hrest e' h'
        exact ⟨p', List.mem_cons_of_mem _ hp', hid⟩
    · rw [hhash] at he
      simp at he

theorem remove_peer_registry {s s' : FileIndex} {pid : Json}
    (h : s.remove_peer pid = some s') :
    pid.hashable = true ∧ s'.peer_registry = dictPop pid s.peer_registry := by
  simp only [FileIndex.remove_peer] at h
  rcases hh : (!pid.hashable) with _ | _
  · rw [hh] at h
    rw [if_neg (by simp)] at h
    rw [Option.some_inj] at h
    subst h
    refine ⟨?_, rfl⟩
    revert hh
    cases pid.hashable <;> simp
  · rw [hh] at h
    simp at h

theorem remove_peer_no_serving {s s' : FileIndex} {pid : Json}
    (h : s.remove_peer pid = some s') :
    ∀ kv ∈ s'.file_index, ∀ p ∈ kv.2, pyEq p.peer_id pid = false := by
  simp only [FileIndex.remove_peer] at h
  rcases hh : (!pid.hashable) with _ | _
  · rw [hh] at h
    rw [if_neg (by simp)] at h
    rw [Option.some_inj] at h
    subst h
    intro kv hm p hp
    obtain ⟨orig, _, horig⟩ := List.mem_filterMap.mp hm
    try dsimp only at horig
    by_cases hemp : ((orig.2.filter (fun q => !(pyEq q.peer_id pid))).isEmpty = true)
    · rw [if_pos hemp] at horig
      simp at horig
    · rw [if_neg hemp] at horig
      rw [Option.some_inj] at horig
      rw [← horig] at hp
      have hkeep := (List.mem_filter.mp hp).2
      revert hkeep
      cases pyEq p.peer_id pid <;> simp
  · rw [hh] at h
    simp at h

theorem get_peers_subset {s : FileIndex} {f : Json} {l : List Enriched}
    (h : s.get_peers_for_file f = some l) :
    ∀ e ∈ l, ∃ kv ∈ s.file_index, ∃ p ∈ kv.2, e.peer_id = p.peer_id := by
  intro e he
  simp only [FileIndex.get_peers_for_file] at h
  rcases hf : (!f.hashable) with _ | _
  · rw [hf] at h
    rw [if_neg (by simp)] at h
    cases hv : dictGet f s.file_index with
    | none =>
      rw [hv] at h
      simp only [Option.getD_none, enrichAll, Option.some_inj] at h
      subst h
      simp at he
    | some v =>
      rw [hv] at h
      simp only [Option.getD_some] at h
      obtain ⟨k', hmem, _⟩ := dictGet_mem hv
      obtain ⟨p, hp, hpid⟩ := enrichAll_peer_ids h e he
      exact ⟨(k', v), hmem, p, hp, hpid⟩
  · rw [hf] at h
    rw [if_pos (by simp)] at h
    simp at h

end Helpers

/-- An index state holding a serving whose `peer_id` is not registered. -/
def c1State : FileIndex := ⟨[(.str "f", [⟨.str "p", .obj []⟩])], []⟩

/-- C1 counterexample: with a serving of `"f"` by the unregistered peer
`"p"`, `get_peers_for_file "f"` does NOT omit the entry: it returns it
with an empty `peer` record, although `"p"` is not in the registry. -/
theorem c1_counterexample :
    c1State.get_peers_for_file (.str "f") = some [⟨.str "p", .obj [], .obj []⟩] ∧
    dictGet (.str "p") c1State.peer_registry = none := by
  constructor
  · simp [c1State, FileIndex.get_peers_for_file, Json.hashable, dictGet, pyEq,
      enrichAll, enrichServing]
  · rfl

/-- C1 (amended): `get_peers_for_file` returns one enriched entry per
stored serving, in order — entries whose `peer_id` is not registered are
kept, with the `peer` field defaulting to the empty record `{}`; for
registered peers the `peer` field is the current registry record. -/
theorem c1_enrichment (s : FileIndex) (f : Json) (l : List Enriched)
    (h : s.get_peers_for_file f = some l) :
    l.length = ((dictGet f s.file_index).getD []).length ∧
    ∀ pr ∈ l.zip ((dictGet f s.file_index).getD []),
      pr.1.peer_id = pr.2.peer_id ∧ pr.1.meta = pr.2.meta ∧
      pr.1.peer = (dictGet pr.2.peer_id s.peer_registry).getD (Json.obj []) := by
  simp only [FileIndex.get_peers_for_file] at h
  rcases hh : (!f.hashable) with _ | _
  · rw [hh] at h
    simp at h
    exact enrichAll_spec h
  · rw [hh] at h
    simp at h

/-- Witness for `c1_enrichment` at the concrete state `c1State`. -/
theorem c1_enrichment_witness :
    ([⟨.str "p", .obj [], .obj []⟩] : List Enriched).length =
      ((dictGet (.str "f") c1State.file_index).getD []).length :=
  (c1_enrichment c1State (.str "f") _
    (by simp [c1State, FileIndex.get_peers_for_file, Json.hashable, dictGet, pyEq,
      enrichAll, enrichServing])).1

/-- C2: after a successful `remove_peer(p)`, `get_peer(p)` is `None` and
no `get_peers_for_file` result contains an entry for `p`; registry entry
and servings are removed by the one state transition of `remove_peer`
(the embedding of the single critical section under `self._lock`).  The
first hypothesis says `peer_registry` is a valid dict for the probe `pid`
(a Python dict never holds two keys equal to one another). -/
theorem c2_remove_peer (s s' : FileIndex) (pid : Json)
    (hu : (s.peer_registry.filter (fun kv => pyEq pid kv.1)).length ≤ 1)
    (h : s.remove_peer pid = some s') :
    s'.get_peer pid = some none ∧
    ∀ f l, s'.get_peers_for_file f = some l → ∀ e ∈ l, pyEq e.peer_id pid = false := by
  obtain ⟨hhash, hreg⟩ := remove_peer_registry h
  constructor
  · simp [FileIndex.get_peer, hhash, hreg]
    exact dictGet_dictPop_of_unique hu
  · intro f l hget e he
    obtain ⟨kv, hkv, p, hp, hpid⟩ := get_peers_subset hget e he
    rw [hpid]
    exact remove_peer_no_serving h kv hkv p hp

/-- A two-serving state for exercising `remove_peer`. -/
def c2State : FileIndex :=
  ⟨[(.str "f", [⟨.str "p", .obj []⟩, ⟨.str "q", .obj []⟩])],
   [(.str "p", .obj [("peer_id", .str "p")])]⟩

/-- Witness for `c2_remove_peer` at the concrete state `c2State`. -/
theorem c2_remove_peer_witness :
    (⟨[(.str "f", [⟨.str "q", .obj []⟩])], []⟩ : FileIndex).get_peer (.str "p") =
      some none :=
  (c2_remove_peer c2State _ (.str "p")
    (by simp [c2State, List.filter, pyEq])
    (by simp [c2State, FileIndex.remove_peer, Json.hashable, dictPop, pyEq])).1

/-- C4: a duplicate `add_file(p, f, m')` is a complete no-op: the state is
returned unchanged, so `|servings(f)|` does not grow and the stored meta
stays the one from the first call, not `m'`.  Hypotheses: `f` is a
hashable (dict-usable) key and `p` already serves `f`. -/
theorem c4_add_file_idempotent (s : FileIndex) (pid f m' : Json) (l : List Serving)
    (hh : f.hashable = true)
    (hl : dictGet f s.file_index = some l)
    (hdup : l.any (fun p => pyEq p.peer_id pid) = true) :
    s.add_file pid f m' = some s := by
  simp [FileIndex.add_file, hh, hl, hdup]

/-- A state in which `"p"` already serves `"f"` with meta `{"sz": 1}`. -/
def c4State : FileIndex := ⟨[(.str "f", [⟨.str "p", .obj [("sz", .num 1)]⟩])], []⟩

/-- Witness for `c4_add_file_idempotent`: re-adding `"f"` for `"p"` with a
different meta returns the state unchanged. -/
theorem c4_add_file_idempotent_witness :
    c4State.add_file (.str "p") (.str "f") (.obj [("sz", .num 2)]) = some c4State :=
  c4_add_file_idempotent c4State (.str "p") (.str "f") (.obj [("sz", .num 2)])
    [⟨.str "p", .obj [("sz", .num 1)]⟩]
    rfl
    (by simp [c4State, dictGet, pyEq])
    (by simp [pyEq])

/-- C9: `add_peer` on an already-registered `peer_id` replaces the
registry record with the one built from the new `record'` alone
(`{"peer_id": pid, **record'}`), and leaves the file index — every file,
serving and meta — untouched. -/
theorem c9_add_peer_replaces (s s' : FileIndex) (pid : Json)
    (kvs : List (String × Json)) (r : Json)
    (hexist : s.get_peer pid = some (some r))
    (h : s.add_peer pid (.obj kvs) = some s') :
    s'.file_index = s.file_index ∧
    s'.peer_registry = dictSet pid (.obj (mkPeerRecord pid kvs)) s.peer_registry ∧
    s'.get_peer pid = some (some (.obj (mkPeerRecord pid kvs))) := by
  simp only [FileIndex.add_peer] at h
  simp only [FileIndex.get_peer] at hexist ⊢
  rcases hh : (!pid.hashable) with _ | _
  · rw [hh] at h hexist
    simp at h hexist
    subst h
    exact ⟨rfl, rfl, by simp [dictGet_dictSet_of_found hexist]⟩
  · rw [hh] at h
    simp at h

/-- A state with `"p"` registered (old record) and serving `"f"`. -/
def c9State : FileIndex :=
  ⟨[(.str "f", [⟨.str "p", .obj []⟩])],
   [(.str "p", .obj [("peer_id", .str "p"), ("host", .str "h1")])]⟩

theorem add_peer_file_index {s s' : FileIndex} {pid info : Json}
    (h : s.add_peer pid info = some s') : s'.file_index = s.file_index := by
  simp only [FileIndex.add_peer] at h
  rcases hh : (!pid.hashable) with _ | _ <;> rw [hh] at h
  · rw [if_neg (by simp)] at h
    cases info <;> simp at h
    rw [← h]
  · simp at h

theorem remove_peer_nonempty {s s' : FileIndex} {pid : Json}
    (h : s.remove_peer pid = some s') : ∀ kv ∈ s'.file_index, kv.2 ≠ [] := by
  simp only [FileIndex.remove_peer] at h
  rcases hh : (!pid.hashable) with _ | _ <;> rw [hh] at h
  · rw [if_neg (by simp)] at h
    rw [Option.some_inj] at h
    subst h
    intro kv hm
    obtain ⟨orig, _, horig⟩ := List.mem_filterMap.mp hm
    try dsimp only at horig
    by_cases hemp : ((orig.2.filter (fun q => !(pyEq q.peer_id pid))).isEmpty = true)
    · rw [if_pos hemp] at horig
      simp at horig
    · rw [if_neg hemp] at horig
      rw [Option.some_inj] at horig
      rw [← horig]
      simpa using hemp
  · simp at h

theorem add_file_nonempty {s s' : FileIndex} {pid f m : Json}
    (hs : ∀ kv ∈ s.file_index, kv.2 ≠ [])
    (h : s.add_file pid f m = some s') : ∀ kv ∈ s'.file_index, kv.2 ≠ [] := by
  simp only [FileIndex.add_file] at h
  rcases hh : (!f.hashable) with _ | _ <;> rw [hh] at h
  · rw [if_neg (by simp)] at h
    try dsimp only at h
    cases hv : dictGet f s.file_index with
    | some peers =>
      rw [hv] at h
      try dsimp only at h
      by_cases hdup : (peers.any (fun p => pyEq p.peer_id pid) = true)
      · rw [if_pos hdup] at h
        rw [Option.some_inj] at h
        subst h
        exact hs
      · rw [if_neg hdup] at h
        rw [Option.some_inj] at h
        subst h
        intro kv hm
        rcases mem_dictSet hm with hm' | hval
        · exact hs kv hm'
        · rw [hval]
          simp
    | none =>
      rw [hv] at h
      try dsimp only at h
      rw [Option.some_inj] at h
      subst h
      intro kv hm
      rcases List.mem_append.mp hm with hm' | hm'
      · exact hs kv hm'
      · simp at hm'
        rw [hm']
        simp
  · simp at h

theorem remove_file_nonempty {s s' : FileIndex} {pid f : Json}
    (hs : ∀ kv ∈ s.file_index, kv.2 ≠ [])
    (h : s.remove_file pid f = some s') : ∀ kv ∈ s'.file_index, kv.2 ≠ [] := by
  simp only [FileIndex.remove_file] at h
  rcases hh : (!f.hashable) with _ | _ <;> rw [hh] at h
  · rw [if_neg (by simp)] at h
    cases hv : dictGet f s.file_index with
    | none =>
      rw [hv] at h
      try dsimp only at h
      rw [Option.some_inj] at h
      subst h
      exact hs
    | some peers =>
      rw [hv] at h
      try dsimp only at h
      by_cases he0 : (peers.isEmpty = true)
      · rw [if_pos he0] at h
        rw [Option.some_inj] at h
        subst h
        exact hs
      · rw [if_neg he0] at h
        try dsimp only at h
        by_cases hemp : ((peers.filter (fun q => !(pyEq q.peer_id pid))).isEmpty = true)
        · rw [if_pos hemp] at h
          rw [Option.some_inj] at h
          subst h
          intro kv hm
          exact hs kv (mem_dictPop hm)
        · rw [if_neg hemp] at h
          rw [Option.some_inj] at h
          subst h
          intro kv hm
          rcases mem_dictSet hm with hm' | hval
          · exact hs kv hm'
          · rw [hval]
            simpa using hemp
  · simp at h

theorem keys_any_iff {d : List (Json × List Serving)}
    (hv : ∀ kv ∈ d, kv.2 ≠ []) (f : Json) :
    ((d.map (·.1)).any (fun k => pyEq f k) = true) ↔
    ∃ l, dictGet f d = some l ∧ l ≠ [] := by
  induction d with
  | nil => simp [dictGet]
  | cons kv t ih =>
    obtain ⟨k, v⟩ := kv
    by_cases hk : pyEq f k = true
    · simp [dictGet, hk]
      exact hv (k, v) (by simp)
    · have hk' : pyEq f k = false := by
        revert hk
        cases pyEq f k <;> simp
      simp only [List.map_cons, List.any_cons, dictGet]
      rw [if_neg (by simp [hk'])]
      rw [hk']
      simp only [Bool.false_or]
      exact ih (fun kv hm => hv kv (List.mem_cons_of_mem _ hm))

/-- C5: in every reachable index state, every stored serving list is
non-empty, and a file name is among `list_files()` (up to Python `==`)
iff its looked-up serving list is non-empty. -/
theorem c5_files_iff_nonempty (s : FileIndex) (h : Reachable s) :
    (∀ kv ∈ s.file_index, kv.2 ≠ []) ∧
    ∀ f : Json, (s.list_files.any (fun k => pyEq f k) = true ↔
      ∃ l, dictGet f s.file_index = some l ∧ l ≠ []) := by
  have main : ∀ kv ∈ s.file_index, kv.2 ≠ [] := by
    induction h with
    | init => simp [FileIndex.empty]
    | add_peer _ hop ih => rw [add_peer_file_index hop]; exact ih
    | remove_peer _ hop => exact remove_peer_nonempty hop
    | add_file _ hop ih => exact add_file_nonempty ih hop
    | remove_file _ hop ih => exact remove_file_nonempty ih hop
  exact ⟨main, fun f => by simpa [FileIndex.list_files] using keys_any_iff main f⟩

/-- Witness for `c5_files_iff_nonempty` at the reachable state obtained
by one `add_file` on the empty index: the registered file is listed. -/
theorem c5_files_iff_nonempty_witness :
    (⟨[(.str "f", [⟨.str "p", .obj []⟩])], []⟩ : FileIndex).list_files.any
      (fun k => pyEq (.str "f") k) = true :=
  ((c5_files_iff_nonempty ⟨[(.str "f", [⟨.str "p", .obj []⟩])], []⟩
    (@Reachable.add_file FileIndex.empty ⟨[(.str "f", [⟨.str "p", .obj []⟩])], []⟩
      (.str "p") (.str "f") (.obj []) Reachable.init rfl)).2 (.str "f")).mpr
    ⟨[⟨.str "p", .obj []⟩], by simp [dictGet, pyEq], by simp⟩

/-- Witness for `c9_add_peer_replaces` at `c9State`. -/
theorem c9_add_peer_replaces_witness :
    (⟨[(.str "f", [⟨.str "p", .obj []⟩])],
      [(.str "p", .obj [("peer_id", .str "p"), ("host", .str "h2")])]⟩ : FileIndex).file_index =
      c9State.file_index :=
  (c9_add_peer_replaces c9State
      ⟨[(.str "f", [⟨.str "p", .obj []⟩])],
       [(.str "p", .obj [("peer_id", .str "p"), ("host", .str "h2")])]⟩
      (.str "p") [("host", .str "h2")]
      (.obj [("peer_id", .str "p"), ("host", .str "h1")])
      (by simp [c9State, FileIndex.get_peer, Json.hashable, dictGet, pyEq])
      (by simp [c9State, FileIndex.add_peer, Json.hashable, dictSet, pyEq,
        mkPeerRecord, objSet])).1


/-- C6: a REGISTRY_REQUEST whose envelope `peer_id` is absent (so
`message.get("peer_id")` gives `None`) or the empty string is answered
with a REGISTRY_RESPONSE of `status="error"`, `error="missing peer_id"`,
and the handler returns the index state unchanged. -/
theorem c6_missing_peer_id (s : FileIndex) (msg : Message) (client_host : String)
    (client_port R : Int)
    (h : msg.peer_id = Json.null ∨ msg.peer_id = Json.str "") :
    RegistryService.register_peer s msg client_host client_port R =
      some (s, ⟨REGISTRY_RESPONSE, msg.peer_id,
        ⟨"error", some "missing peer_id", none, none, none⟩⟩) := by
  rcases h with h | h <;>
    simp [RegistryService.register_peer, h, Json.truthy, createMessage,
      show "".isEmpty = true from rfl]

/-- Witness for `c6_missing_peer_id`: a request with `peer_id = null`. -/
theorem c6_missing_peer_id_witness :
    RegistryService.register_peer FileIndex.empty ⟨Json.null, []⟩ "127.0.0.1" 7100 2 =
      some (FileIndex.empty, ⟨REGISTRY_RESPONSE, Json.null,
        ⟨"error", some "missing peer_id", none, none, none⟩⟩) :=
  c6_missing_peer_id FileIndex.empty ⟨Json.null, []⟩ "127.0.0.1" 7100 2 (Or.inl rfl)

/-- C7 counterexample: a SEARCH_REQUEST whose `query` is JSON `null` —
neither a non-empty string nor an object — makes the handler raise
(`query.get("file_name")` on `None`), so NO response is produced, in
particular not a `status="error"` one. -/
theorem c7_counterexample :
    SearchService.search FileIndex.empty ⟨.str "c", [("query", Json.null)]⟩ = none := by
  simp [SearchService.search, lookupKV]

/-- C7 (amended): an empty-string query, or an object query whose
`file_name` is absent or falsy, draws `status="error"`; a non-empty
string query, or an object query with a truthy `file_name`, draws
`status="ok"` with `results = get_peers_for_file(file_name)` (when that
lookup does not raise); a query of any other type (null, number, boolean,
array) makes the handler raise, producing no response at all. -/
theorem c7_search_cases (s : FileIndex) (msg : Message) (q : Json)
    (hq : (lookupKV "query" msg.payload).getD (Json.obj []) = q) :
    (∀ fn : String, q = .str fn →
      (fn = "" → SearchService.search s msg =
        some ⟨SEARCH_RESPONSE, msg.peer_id, ⟨"error", some "missing file_name", none, []⟩⟩) ∧
      (fn ≠ "" → ∀ l, s.get_peers_for_file (.str fn) = some l →
        SearchService.search s msg =
          some ⟨SEARCH_RESPONSE, msg.peer_id, ⟨"ok", none, some (.str fn), l⟩⟩)) ∧
    (∀ kvs : List (String × Json), q = .obj kvs →
      (((lookupKV "file_name" kvs).getD .null).truthy = false →
        SearchService.search s msg =
          some ⟨SEARCH_RESPONSE, msg.peer_id, ⟨"error", some "missing file_name", none, []⟩⟩) ∧
      (((lookupKV "file_name" kvs).getD .null).truthy = true →
        ∀ l, s.get_peers_for_file ((lookupKV "file_name" kvs).getD .null) = some l →
          SearchService.search s msg =
            some ⟨SEARCH_RESPONSE, msg.peer_id,
              ⟨"ok", none, some ((lookupKV "file_name" kvs).getD .null), l⟩⟩)) ∧
    ((∀ fn : String, q ≠ .str fn) → (∀ kvs : List (String × Json), q ≠ .obj kvs) →
      SearchService.search s msg = none) := by
  refine ⟨?_, ?_, ?_⟩
  · rintro fn rfl
    constructor
    · rintro rfl
      simp [SearchService.search, hq, Json.truthy, createMessage,
        show "".isEmpty = true from rfl]
    · intro hne l hl
      have hie : fn.isEmpty = false := by
        cases hie : fn.isEmpty
        · rfl
        · exact absurd ((String.isEmpty_iff fn).mp hie) hne
      simp [SearchService.search, hq, Json.truthy, hie, hl, createMessage]
  · rintro kvs rfl
    constructor
    · intro hfal
      simp [SearchService.search, hq, hfal, createMessage]
    · intro htru l hl
      simp [SearchService.search, hq, htru, hl, createMessage]
  · intro hstr hobj
    cases q with
    | str fn => exact absurd rfl (hstr fn)
    | obj kvs => exact absurd rfl (hobj kvs)
    | null => simp [SearchService.search, hq]
    | bool b => simp [SearchService.search, hq]
    | num n => simp [SearchService.search, hq]
    | arr xs => simp [SearchService.search, hq]

/-- A state with `"p"` registered and serving `"g"`. -/
def c7State : FileIndex :=
  ⟨[(.str "g", [⟨.str "p", .obj []⟩])], [(.str "p", .obj [("peer_id", .str "p")])]⟩

/-- Witness for `c7_search_cases`: an object query for a present file. -/
theorem c7_search_cases_witness :
    SearchService.search c7State ⟨.str "c", [("query", .obj [("file_name", .str "g")])]⟩ =
      some ⟨SEARCH_RESPONSE, .str "c", ⟨"ok", none, some (.str "g"),
        [⟨.str "p", .obj [("peer_id", .str "p")], .obj []⟩]⟩⟩ :=
  ((c7_search_cases c7State ⟨.str "c", [("query", .obj [("file_name", .str "g")])]⟩
      (.obj [("file_name", .str "g")]) rfl).2.1 [("file_name", .str "g")] rfl).2 rfl
    [⟨.str "p", .obj [("peer_id", .str "p")], .obj []⟩]
    (by
      simp [c7State, FileIndex.get_peers_for_file, Json.hashable, dictGet, pyEq,
        enrichAll, enrichServing, lookupKV, Json.truthy]
      try rfl)

/-- An index with one under-replicated file served by a usable peer. -/
def c8State : FileIndex :=
  ⟨[(.str "f", [⟨.str "p1", .obj []⟩])],
   [(.str "p1", .obj [("peer_id", .str "p1"), ("host", .str "127.0.0.1"), ("port", .num 7100)])]⟩

/-- C8 counterexample: a fresh peer `"p2"` registering with an EMPTY
files mapping against `c8State` (where `"f"` has one serving and the
replication factor is 2) gets `registered_files = 0` but DOES receive a
replication task — the claim "no replication tasks" fails for this index
state. -/
theorem c8_counterexample :
    RegistryService.register_peer c8State ⟨.str "p2", [("files", .obj [])]⟩
        "127.0.0.1" 50000 2 =
      some (⟨c8State.file_index,
        c8State.peer_registry ++ [(.str "p2",
          .obj [("peer_id", .str "p2"), ("host", .str "127.0.0.1"), ("port", .num 50000)])]⟩,
        ⟨REGISTRY_RESPONSE, .str "p2",
          ⟨"ok", none, some 0, some true,
           some [⟨.str "f", .str "p1", .str "127.0.0.1", 7100⟩]⟩⟩) ∧
    some [(⟨.str "f", .str "p1", .str "127.0.0.1", 7100⟩ : Task)] ≠
      (none : Option (List Task)) := by
  constructor
  · simp [RegistryService.register_peer, c8State, lookupKV, Json.truthy, pyToInt,
      FileIndex.add_peer, Json.hashable, mkPeerRecord, objSet, dictSet, pyEq,
      registerFilesDict, build_replication_tasks_for_peer, buildTasksGo,
      FileIndex.list_files, FileIndex.get_peers_for_file, dictGet,
      enrichAll, enrichServing, pyGet, createMessage]
    try rfl
  · simp

/-- C8 (amended): a registration carrying an empty files collection
(empty mapping or empty list) always yields `registered_files = 0`; it
yields no replication tasks when the file index is empty, but may carry
tasks for files other peers left under-replicated. -/
theorem c8_registered_files_zero (s s' : FileIndex) (msg : Message) (client_host : String)
    (client_port R : Int) (env : Envelope RegistryResp)
    (hpid : msg.peer_id.truthy = true)
    (hfiles : (lookupKV "files" msg.payload).getD (Json.obj []) = Json.obj [] ∨
              (lookupKV "files" msg.payload).getD (Json.obj []) = Json.arr [])
    (h : RegistryService.register_peer s msg client_host client_port R = some (s', env)) :
    env.payload.registered_files = some 0 ∧
    (s.file_index = [] → env.payload.replication_tasks = none) := by
  rw [RegistryService.register_peer] at h
  rw [if_neg (by simp [hpid])] at h
  rcases hpi : (lookupKV "peer" msg.payload).getD (Json.obj []) with _ | b | n0 | s0 | xs | pkvs <;>
    rw [hpi] at h <;> try simp at h
  rcases hadd : s.add_peer msg.peer_id
      (Json.obj (objSet "port"
        (Json.num (match (lookupKV "port" pkvs).getD Json.null with
          | Json.null => client_port
          | p => (pyToInt p).getD client_port))
        (objSet "host"
          (if ((lookupKV "host" pkvs).getD Json.null).truthy = true
            then (lookupKV "host" pkvs).getD Json.null else Json.str client_host) pkvs)))
      with _ | s1 <;> rw [hadd] at h
  · simp at h
  · rw [Option.some_bind] at h
    rcases hfiles with hf | hf <;> rw [hf] at h <;>
      dsimp only [registerFilesDict, registerFilesList] at h <;>
      rw [Option.some_bind] at h <;>
      dsimp only at h <;>
      [skip; skip] <;>
      rcases htasks : build_replication_tasks_for_peer s1 R msg.peer_id 5
          with _ | tasks <;> rw [htasks] at h
    case none => simp at h
    case some =>
      rw [Option.some_bind, Option.some_inj, Prod.mk.injEq] at h
      obtain ⟨h1, h2⟩ := h
      subst h2
      constructor
      · by_cases he : tasks.isEmpty <;> simp [he, createMessage]
      · intro hempty
        have hlf : s1.list_files = [] := by
          simp [FileIndex.list_files, add_peer_file_index hadd, hempty]
        rw [build_replication_tasks_for_peer, hlf] at htasks
        simp only [buildTasksGo, Option.some_inj] at htasks
        subst htasks
        simp [createMessage]
    case none => simp at h
    case some =>
      rw [Option.some_bind, Option.some_inj, Prod.mk.injEq] at h
      obtain ⟨h1, h2⟩ := h
      subst h2
      constructor
      · by_cases he : tasks.isEmpty <;> simp [he, createMessage]
      · intro hempty
        have hlf : s1.list_files = [] := by
          simp [FileIndex.list_files, add_peer_file_index hadd, hempty]
        rw [build_replication_tasks_for_peer, hlf] at htasks
        simp only [buildTasksGo, Option.some_inj] at htasks
        subst htasks
        simp [createMessage]

/-- Witness for `c8_registered_files_zero` on the empty index. -/
theorem c8_registered_files_zero_witness :
    (⟨"REGISTRY_RESPONSE", .str "p2",
      ⟨"ok", none, some 0, some false, none⟩⟩ : Envelope RegistryResp).payload.registered_files =
      some 0 :=
  (c8_registered_files_zero FileIndex.empty
    ⟨[], [(.str "p2", .obj [("peer_id", .str "p2"), ("host", .str "h"), ("port", .num 1)])]⟩
    ⟨.str "p2", [("files", .obj [])]⟩ "h" 1 2
    ⟨"REGISTRY_RESPONSE", .str "p2", ⟨"ok", none, some 0, some false, none⟩⟩
    rfl (Or.inl rfl)
    (by
      simp [RegistryService.register_peer, lookupKV, Json.truthy, pyToInt,
        FileIndex.add_peer, Json.hashable, mkPeerRecord, objSet, dictSet, pyEq,
        registerFilesDict, build_replication_tasks_for_peer, buildTasksGo,
        FileIndex.list_files, FileIndex.empty, createMessage, REGISTRY_RESPONSE,
        show "p2".isEmpty = false from rfl]
      try rfl)).1


/-- The condition under which the list-shaped registration loop counts an
element: it is a dict whose `name`-or-`file_name` (first truthy of the
two) is truthy. -/
def countedItem : Json → Bool
  | .obj kvs =>
      (if ((lookupKV "name" kvs).getD .null).truthy
       then (lookupKV "name" kvs).getD .null
       else (lookupKV "file_name" kvs).getD .null).truthy
  | _ => false

theorem registerFilesList_count {pid : Json} :
    ∀ {items : List Json} {s s' : FileIndex} {n n' : Int},
      registerFilesList pid items s n = some (s', n') →
      n' = n + (items.countP countedItem : Int) := by
  intro items
  induction items with
  | nil =>
    intro s s' n n' h
    simp only [registerFilesList, Option.some_inj, Prod.mk.injEq] at h
    simp [h.2]
  | cons item rest ih =>
    intro s s' n n' h
    cases item with
    | obj kvs =>
      simp only [registerFilesList] at h
      by_cases hc : ((if ((lookupKV "name" kvs).getD .null).truthy
          then (lookupKV "name" kvs).getD .null
          else (lookupKV "file_name" kvs).getD .null).truthy = true)
      · rw [if_pos hc] at h
        rcases hadd : s.add_file pid
            (if ((lookupKV "name" kvs).getD .null).truthy = true
              then (lookupKV "name" kvs).getD .null
              else (lookupKV "file_name" kvs).getD .null)
            (Json.obj (kvs.filter (fun kv => kv.1 != "name" && kv.1 != "file_name")))
            with _ | s1 <;> rw [hadd] at h
        · simp at h
        · simp only [Option.bind_eq_bind, Option.some_bind] at h
          have hrec := ih h
          rw [hrec]
          have hcount : countedItem (Json.obj kvs) = true := by
            simp only [countedItem]
            exact hc
          rw [List.countP_cons_of_pos _ _ (by simpa using hcount)]
          push_cast
          omega
      · rw [if_neg hc] at h
        have hrec := ih h
        rw [hrec]
        have hcount : countedItem (Json.obj kvs) = false := by
          simp only [countedItem]
          revert hc
          cases ((if ((lookupKV "name" kvs).getD .null).truthy
            then (lookupKV "name" kvs).getD .null
            else (lookupKV "file_name" kvs).getD .null).truthy) <;> simp
        rw [List.countP_cons_of_neg _ _ (by simp [hcount])]
    | null =>
      simp only [registerFilesList] at h
      rw [ih h, List.countP_cons_of_neg _ _ (by simp [countedItem])]
    | bool b =>
      simp only [registerFilesList] at h
      rw [ih h, List.countP_cons_of_neg _ _ (by simp [countedItem])]
    | num n0 =>
      simp only [registerFilesList] at h
      rw [ih h, List.countP_cons_of_neg _ _ (by simp [countedItem])]
    | str s0 =>
      simp only [registerFilesList] at h
      rw [ih h, List.countP_cons_of_neg _ _ (by simp [countedItem])]
    | arr xs =>
      simp only [registerFilesList] at h
      rw [ih h, List.countP_cons_of_neg _ _ (by simp [countedItem])]

/-- A state in which `"p1"` is registered and already serves `"a"`. -/
def c10MapState : FileIndex :=
  ⟨[(.str "a", [⟨.str "p1", .obj []⟩])],
   [(.str "p1", .obj [("peer_id", .str "p1"), ("host", .str "127.0.0.1"), ("port", .num 7100)])]⟩

/-- C10: (list shape) a successful registration whose `payload.files` is
a list reports `status="ok"` and counts exactly the elements that are
dicts with a truthy `name`/`file_name` — non-dict elements and elements
lacking both keys are silently skipped and not counted; and (mapping
shape, concrete conjunct) a duplicate registration is counted anyway:
`"p1"` re-registers `"a"`, which it already serves, yet
`registered_files = 1` while the file index keeps the single serving —
`registered_files` exceeds the number of servings added (0). -/
theorem c10_register_files_count (s s' : FileIndex) (msg : Message) (client_host : String)
    (client_port R : Int) (items : List Json) (env : Envelope RegistryResp)
    (hpid : msg.peer_id.truthy = true)
    (hfiles : (lookupKV "files" msg.payload).getD (Json.obj []) = Json.arr items)
    (h : RegistryService.register_peer s msg client_host client_port R = some (s', env)) :
    (env.payload.status = "ok" ∧
     env.payload.registered_files = some (items.countP countedItem : Int)) ∧
    RegistryService.register_peer c10MapState
        ⟨.str "p1", [("files", .obj [("a", .obj [])])]⟩ "127.0.0.1" 50000 2 =
      some (⟨[(.str "a", [⟨.str "p1", .obj []⟩])],
        [(.str "p1", .obj [("peer_id", .str "p1"), ("host", .str "127.0.0.1"),
          ("port", .num 50000)])]⟩,
        ⟨REGISTRY_RESPONSE, .str "p1", ⟨"ok", none, some 1, some false, none⟩⟩) := by
  constructor
  · rw [RegistryService.register_peer] at h
    rw [if_neg (by simp [hpid])] at h
    rcases hpi : (lookupKV "peer" msg.payload).getD (Json.obj []) with _ | b | n0 | s0 | xs | pkvs <;>
      rw [hpi] at h <;> try simp at h
    rcases hadd : s.add_peer msg.peer_id
        (Json.obj (objSet "port"
          (Json.num (match (lookupKV "port" pkvs).getD Json.null with
            | Json.null => client_port
            | p => (pyToInt p).getD client_port))
          (objSet "host"
            (if ((lookupKV "host" pkvs).getD Json.null).truthy = true
              then (lookupKV "host" pkvs).getD Json.null else Json.str client_host) pkvs)))
        with _ | s1 <;> rw [hadd] at h
    · simp at h
    · rw [Option.some_bind] at h
      rw [hfiles] at h
      dsimp only at h
      rcases hreg : registerFilesList msg.peer_id items s1 0 with _ | p <;> rw [hreg] at h
      · simp at h
      · obtain ⟨s2, registered⟩ := p
        rw [Option.some_bind] at h
        dsimp only at h
        rcases htasks : build_replication_tasks_for_peer s2 R msg.peer_id 5
            with _ | tasks <;> rw [htasks] at h
        · simp at h
        · rw [Option.some_bind, Option.some_inj, Prod.mk.injEq] at h
          obtain ⟨h1, h2⟩ := h
          subst h2
          have hcount := registerFilesList_count hreg
          by_cases he : tasks.isEmpty <;> simp [he, createMessage, hcount]
  · simp [RegistryService.register_peer, c10MapState, lookupKV, Json.truthy, pyToInt,
      FileIndex.add_peer, FileIndex.add_file, Json.hashable, mkPeerRecord, objSet,
      dictSet, dictGet, pyEq, registerFilesDict, build_replication_tasks_for_peer,
      buildTasksGo, FileIndex.list_files, FileIndex.get_peers_for_file,
      enrichAll, enrichServing, pyGet, createMessage,
      show "p1".isEmpty = false from rfl]
    try rfl

/-- Witness for `c10_register_files_count`: a list payload with a
non-dict element, a dict without `name`/`file_name`, and one proper
entry; only the proper entry is counted. -/
theorem c10_register_files_count_witness :
    (⟨REGISTRY_RESPONSE, .str "pz",
      ⟨"ok", none, some 1, some false, none⟩⟩ : Envelope RegistryResp).payload.registered_files =
      some (([Json.num 5, .obj [("x", .num 1)], .obj [("name", .str "g")]] : List Json).countP
        countedItem : Int) :=
  (c10_register_files_count FileIndex.empty
    ⟨[(.str "g", [⟨.str "pz", .obj []⟩])],
     [(.str "pz", .obj [("peer_id", .str "pz"), ("host", .str "10.0.0.9"), ("port", .num 6000)])]⟩
    ⟨.str "pz", [("files", .arr [.num 5, .obj [("x", .num 1)], .obj [("name", .str "g")]])]⟩
    "10.0.0.9" 6000 2
    [.num 5, .obj [("x", .num 1)], .obj [("name", .str "g")]]
    ⟨REGISTRY_RESPONSE, .str "pz", ⟨"ok", none, some 1, some false, none⟩⟩
    rfl rfl
    (by
      simp [RegistryService.register_peer, lookupKV, Json.truthy, pyToInt,
        FileIndex.add_peer, FileIndex.add_file, Json.hashable, mkPeerRecord, objSet,
        dictSet, dictGet, pyEq, registerFilesList, build_replication_tasks_for_peer,
        buildTasksGo, FileIndex.list_files, FileIndex.get_peers_for_file,
        enrichAll, enrichServing, pyGet, createMessage, FileIndex.empty, REGISTRY_RESPONSE,
        show "pz".isEmpty = false from rfl, show "g".isEmpty = false from rfl]
      try rfl)).1.2

end P2PIndex
